import Mathlib

/-!
Shallow embedding of the lending lifecycle of the Library_Management
repository: the Transaction schema (methods and virtuals), the Book and
User documents, the review-rating aggregator, and the Express route
handlers for borrow / return / renew / reserve / cancel-reservation.
Times are integer milliseconds since the epoch; JS numbers that hold
money or ratings are modelled as rationals.
-/

namespace Library

/-- Transaction.type enum from the transaction schema. -/
inductive TxType where
  | borrow | ret | renew | reserve | cancelReservation
  | lateReturn | lostBook | damagedBook
deriving DecidableEq, Repr

/-- Transaction.status enum from the transaction schema. -/
inductive TxStatus where
  | pending | active | completed | overdue | cancelled | lost | damaged
deriving DecidableEq, Repr

/-- Transaction.fineStatus enum from the transaction schema. -/
inductive FineStatus where
  | none | pending | paid | waived | disputed
deriving DecidableEq, Repr

/-- Book condition enum from the book schema. -/
inductive BookCondition where
  | new | excellent | good | fair | poor | damaged
deriving DecidableEq, Repr

/-- User.membershipType enum described by the user routes and middleware. -/
inductive Membership where
  | basic | premium | student | faculty
deriving DecidableEq, Repr

/-- Review.status enum from the review schema. -/
inductive RevStatus where
  | draft | published | hidden | reported | removed
deriving DecidableEq, Repr

/-- Milliseconds in one day, the unit used by all date arithmetic in the code. -/
def msPerDay : Int := 1000 * 60 * 60 * 24

/-- The fields of a Transaction document that the lifecycle code reads or writes. -/
structure Transaction where
  id : Nat
  user : Nat
  book : Nat
  type : TxType
  status : TxStatus
  dueDate : Option Int
  returnDate : Option Int
  actualReturnDate : Option Int
  renewalCount : Nat
  maxRenewals : Nat
  lastRenewalDate : Option Int
  reservationDate : Option Int
  reservationExpiry : Option Int
  fineAmount : ℚ
  fineStatus : FineStatus
  bookConditionAtBorrow : Option BookCondition
  bookConditionAtReturn : Option BookCondition
  conditionNotes : String
  isDigital : Bool
deriving DecidableEq, Repr

/-- Virtual daysOverdue: zero unless the stored status is overdue and a due
date exists; otherwise the ceiling of the elapsed time in days. -/
def daysOverdue (t : Transaction) (now : Int) : Int :=
  if t.status ≠ TxStatus.overdue then 0
  else match t.dueDate with
    | Option.none => 0
    | Option.some d => ⌈((now - d : Int) : ℚ) / (msPerDay : ℚ)⌉

/-- Virtual isOverdue: a due date exists, now is past it, and status is active. -/
def isOverdueB (t : Transaction) (now : Int) : Bool :=
  match t.dueDate with
  | Option.none => false
  | Option.some d => decide (d < now) && (t.status == TxStatus.active)

/-- Virtual canRenew: borrow type, active, renewals left, due date in the future. -/
def canRenewB (t : Transaction) (now : Int) : Bool :=
  (t.type == TxType.borrow) && (t.status == TxStatus.active) &&
  (t.renewalCount < t.maxRenewals) &&
  (match t.dueDate with
   | Option.none => false
   | Option.some d => decide (now < d))

/-- First pre-save hook of the transaction schema: default the due date of
a freshly created borrow to 21 days out (14 for a digital copy). -/
def txHook1 (isNew : Bool) (t : Transaction) (now : Int) : Transaction :=
  if isNew && (t.type == TxType.borrow) && t.dueDate.isNone then
    { t with dueDate :=
        Option.some (now + (if t.isDigital then 14 else 21) * msPerDay) }
  else t

/-- Second pre-save hook: flip an active past-due transaction to overdue. -/
def txHook2 (t : Transaction) (now : Int) : Transaction :=
  if isOverdueB t now && (t.status == TxStatus.active) then
    { t with status := TxStatus.overdue }
  else t

/-- The two pre-save hooks of the transaction schema, applied in order. -/
def txPreSave (isNew : Bool) (t : Transaction) (now : Int) : Transaction :=
  txHook2 (txHook1 isNew t now) now

/-- Method calculateFine: paid or waived fines are returned unchanged; a
transaction that is not isOverdue gets fine 0 and fineStatus none; otherwise
fine is half a dollar per overdue day capped at 25 dollars. Returns the
updated transaction and the returned amount. -/
def calculateFine (t : Transaction) (now : Int) : Transaction × ℚ :=
  if t.fineStatus == FineStatus.paid || t.fineStatus == FineStatus.waived then
    (t, t.fineAmount)
  else if !(isOverdueB t now) then
    ({ t with fineAmount := 0, fineStatus := FineStatus.none }, 0)
  else
    let d : Int := daysOverdue t now
    let amt : ℚ := min ((d : ℚ) * (1 / 2)) 25
    ({ t with fineAmount := amt,
              fineStatus := if 0 < amt then FineStatus.pending else FineStatus.none },
     amt)

/-- Method renew, success path: bump renewalCount, stamp lastRenewalDate,
push the due date out by the given number of days, and retag as renew. -/
def renewApplied (t : Transaction) (now : Int) (days : Int) : Transaction :=
  { t with renewalCount := t.renewalCount + 1,
           lastRenewalDate := Option.some now,
           dueDate := Option.some (now + days * msPerDay),
           type := TxType.renew }

/-- Method renew: guarded by canRenew, then the success path followed by save. -/
def renewM (t : Transaction) (now : Int) (days : Int) : Except String Transaction :=
  if !(canRenewB t now) then Except.error "Transaction cannot be renewed"
  else Except.ok (txPreSave false (renewApplied t now days) now)

/-- Method returnBook, success path: mark completed, stamp the return dates,
record condition and notes when given, then run calculateFine and save. -/
def returnApplied (t : Transaction) (cond : Option BookCondition)
    (notes : String) (now : Int) : Transaction :=
  let t1 := { t with status := TxStatus.completed,
                     returnDate := Option.some now,
                     actualReturnDate := Option.some now }
  let t2 := match cond with
    | Option.some c => { t1 with bookConditionAtReturn := Option.some c }
    | Option.none => t1
  let t3 := if notes ≠ "" then { t2 with conditionNotes := notes } else t2
  txPreSave false (calculateFine t3 now).1 now

/-- Method returnBook: rejects a transaction that is neither active nor
overdue, otherwise the success path. -/
def returnBookM (t : Transaction) (cond : Option BookCondition)
    (notes : String) (now : Int) : Except String Transaction :=
  if t.status ≠ TxStatus.active ∧ t.status ≠ TxStatus.overdue then
    Except.error "Transaction is not active"
  else Except.ok (returnApplied t cond notes now)

/-- Static findOverdue: the active transactions whose due date has passed. -/
def findOverdue (txns : List Transaction) (now : Int) : List Transaction :=
  txns.filter (fun t =>
    (t.status == TxStatus.active) &&
    (match t.dueDate with
     | Option.none => false
     | Option.some d => decide (d < now)))

/-- The fields of a Book document that the lifecycle and review code touch. -/
structure Book where
  id : Nat
  totalCopies : Int
  availableCopies : Int
  isAvailable : Bool
  isActive : Bool
  isDeleted : Bool
  condition : BookCondition
  averageRating : ℚ
  totalRatings : Nat
  totalReviews : Nat
deriving DecidableEq, Repr

/-- Book pre-save hook: recompute the stored isAvailable flag. -/
def bookPreSave (b : Book) : Book :=
  { b with isAvailable := decide (0 < b.availableCopies) && !b.isDeleted }

/-- Method canBeBorrowed on the book schema. -/
def canBeBorrowed (b : Book) : Bool :=
  b.isAvailable && decide (0 < b.availableCopies) && !b.isDeleted &&
  !(b.condition == BookCondition.damaged)

/-- The fields of a User document that the lifecycle code touches. -/
structure User where
  id : Nat
  membershipType : Membership
  currentBorrowedBooks : List Nat
  totalBooksBorrowed : Nat
  totalBooksRead : Nat
deriving DecidableEq, Repr

/-- The per-tier concurrent-loan caps from the borrowing-limits middleware. -/
def membershipLimit : Membership → Nat
  | Membership.basic => 3
  | Membership.premium => 10
  | Membership.student => 5
  | Membership.faculty => 8

/-- The checkBorrowingLimits middleware predicate: true when the request may
proceed, false when it is rejected with BORROWING_LIMIT_EXCEEDED. -/
def checkBorrowingLimits (u : User) : Bool :=
  u.currentBorrowedBooks.length < membershipLimit u.membershipType

/-- The fields of a Review document that the rating aggregator touches. -/
structure Review where
  id : Nat
  user : Nat
  book : Nat
  rating : ℚ
  status : RevStatus
deriving DecidableEq, Repr

/-- The published reviews of one book, the set the aggregator averages over. -/
def publishedFor (reviews : List Review) (bid : Nat) : List Review :=
  reviews.filter (fun r => (r.book == bid) && (r.status == RevStatus.published))

/-- JS Math.round(x times 10) divided by 10: round to one decimal, halves up. -/
def round1 (q : ℚ) : ℚ := (⌊q * 10 + 1 / 2⌋ : ℤ) / 10

/-- Static updateBookRatings: with no published reviews it returns without
touching the book; otherwise it writes the rounded mean rating and the
published-review count onto the book found by id. -/
def updateBookRatings (books : List Book) (reviews : List Review)
    (bid : Nat) : List Book :=
  let pubs := publishedFor reviews bid
  if pubs.length = 0 then books
  else
    let total : ℚ := (pubs.map (fun r => r.rating)).sum
    let avg : ℚ := total / (pubs.length : ℚ)
    books.map (fun b =>
      if b.id == bid then
        { b with averageRating := round1 avg,
                 totalRatings := pubs.length,
                 totalReviews := pubs.length }
      else b)

/-- The failure taxonomy the route handlers report. -/
inductive LibErr where
  | notFound | unavailable | duplicateLoan | limitExceeded
  | notActive | notRenewable
deriving DecidableEq, Repr

/-- The three persisted collections plus the id counter for new transactions. -/
structure LibState where
  books : List Book
  users : List User
  txns : List Transaction
  nextTxId : Nat
deriving DecidableEq, Repr

/-- Book.findById. -/
def findBook (s : LibState) (bid : Nat) : Option Book :=
  s.books.find? (fun b => b.id == bid)

/-- User.findById. -/
def findUser (s : LibState) (uid : Nat) : Option User :=
  s.users.find? (fun u => u.id == uid)

/-- Transaction.findById. -/
def findTx (s : LibState) (tid : Nat) : Option Transaction :=
  s.txns.find? (fun t => t.id == tid)

/-- A status that holds a copy: active or overdue. -/
def loanStatus (st : TxStatus) : Bool :=
  st == TxStatus.active || st == TxStatus.overdue

/-- Transaction.findOne on user, book and status in [active, overdue]. -/
def findLoanTx (s : LibState) (uid bid : Nat) : Option Transaction :=
  s.txns.find? (fun t => (t.user == uid) && (t.book == bid) && loanStatus t.status)

/-- Save a book document back into the collection (pre-save hook included). -/
def saveBook (s : LibState) (b : Book) : LibState :=
  { s with books := s.books.map (fun x => if x.id == b.id then bookPreSave b else x) }

/-- Save a user document back into the collection. -/
def saveUser (s : LibState) (u : User) : LibState :=
  { s with users := s.users.map (fun x => if x.id == u.id then u else x) }

/-- Write an already-saved transaction back into the collection by its id. -/
def putTx (s : LibState) (t : Transaction) : LibState :=
  { s with txns := s.txns.map (fun x => if x.id == t.id then t else x) }

/-- The transaction document the borrow route constructs, before save. -/
def newBorrowTx (tid uid bid : Nat) (cond : BookCondition) : Transaction :=
  { id := tid, user := uid, book := bid,
    type := TxType.borrow, status := TxStatus.active,
    dueDate := Option.none, returnDate := Option.none,
    actualReturnDate := Option.none,
    renewalCount := 0, maxRenewals := 3,
    lastRenewalDate := Option.none,
    reservationDate := Option.none, reservationExpiry := Option.none,
    fineAmount := 0, fineStatus := FineStatus.none,
    bookConditionAtBorrow := Option.some cond,
    bookConditionAtReturn := Option.none,
    conditionNotes := "", isDigital := false }

/-- POST books/:id/borrow: guards in route order, then the three saves
(create the transaction, decrement the book, extend the user). Returns the
state after the operation together with the reported failure, if any. -/
def borrowOp (s : LibState) (uid bid : Nat) (now : Int) :
    LibState × Option LibErr :=
  match findUser s uid with
  | Option.none => (s, Option.some LibErr.notFound)
  | Option.some u =>
    match findBook s bid with
    | Option.none => (s, Option.some LibErr.notFound)
    | Option.some book =>
      if !book.isActive || book.isDeleted then (s, Option.some LibErr.notFound)
      else if !(canBeBorrowed book) then (s, Option.some LibErr.unavailable)
      else if (findLoanTx s uid bid).isSome then
        (s, Option.some LibErr.duplicateLoan)
      else
        let t := txPreSave true (newBorrowTx s.nextTxId uid bid book.condition) now
        let s1 := { s with txns := s.txns ++ [t], nextTxId := s.nextTxId + 1 }
        let s2 := saveBook s1 { book with availableCopies := book.availableCopies - 1 }
        let s3 := saveUser s2
          { u with currentBorrowedBooks := u.currentBorrowedBooks ++ [bid],
                   totalBooksBorrowed := u.totalBooksBorrowed + 1 }
        (s3, Option.none)

/-- POST transactions/:id/return: status guard, returnBook, optional waive,
then the book increment and the user update (each skipped when the
referenced document is missing). -/
def returnByIdOp (s : LibState) (tid : Nat) (cond : Option BookCondition)
    (notes : String) (waiveFine : Bool) (now : Int) :
    LibState × Option LibErr :=
  match findTx s tid with
  | Option.none => (s, Option.some LibErr.notFound)
  | Option.some t =>
    if !(loanStatus t.status) then (s, Option.some LibErr.notActive)
    else
      let t1 := returnApplied t cond notes now
      let t2 := if waiveFine && decide (0 < t1.fineAmount) then
                  txPreSave false { t1 with fineStatus := FineStatus.waived } now
                else t1
      let s1 := putTx s t2
      let s2 := match findBook s1 t.book with
        | Option.some b => saveBook s1 { b with availableCopies := b.availableCopies + 1 }
        | Option.none => s1
      let s3 := match findUser s2 t.user with
        | Option.some u => saveUser s2
            { u with currentBorrowedBooks :=
                       u.currentBorrowedBooks.filter (fun x => !(x == t.book)),
                     totalBooksRead := u.totalBooksRead + 1 }
        | Option.none => s2
      (s3, Option.none)

/-- POST books/:id/return: find the caller's live transaction for this book,
run returnBook, then increment the book and update the user. A missing book
document aborts after the transaction save (the route dereferences it
without a null check), leaving the partial state. -/
def returnByBookOp (s : LibState) (uid bid : Nat) (cond : Option BookCondition)
    (notes : String) (now : Int) : LibState × Option LibErr :=
  match findUser s uid with
  | Option.none => (s, Option.some LibErr.notFound)
  | Option.some u =>
    match findLoanTx s uid bid with
    | Option.none => (s, Option.some LibErr.notActive)
    | Option.some t =>
      let t1 := returnApplied t cond notes now
      let s1 := putTx s t1
      match findBook s1 bid with
      | Option.none => (s1, Option.some LibErr.notFound)
      | Option.some b =>
        let s2 := saveBook s1 { b with availableCopies := b.availableCopies + 1 }
        let s3 := saveUser s2
          { u with currentBorrowedBooks :=
                     u.currentBorrowedBooks.filter (fun x => !(x == bid)),
                   totalBooksRead := u.totalBooksRead + 1 }
        (s3, Option.none)

/-- POST books/:id/renew: find the caller's live transaction, require
canRenew, then the renew method with its default of 14 days. -/
def renewOp (s : LibState) (uid bid : Nat) (now : Int) :
    LibState × Option LibErr :=
  match findUser s uid with
  | Option.none => (s, Option.some LibErr.notFound)
  | Option.some _ =>
    match findLoanTx s uid bid with
    | Option.none => (s, Option.some LibErr.notFound)
    | Option.some t =>
      if !(canRenewB t now) then (s, Option.some LibErr.notRenewable)
      else (putTx s (txPreSave false (renewApplied t now 14) now), Option.none)

/-- The transaction document the reserve route constructs, before save. -/
def newReserveTx (tid uid bid : Nat) (now : Int) : Transaction :=
  { id := tid, user := uid, book := bid,
    type := TxType.reserve, status := TxStatus.pending,
    dueDate := Option.none, returnDate := Option.none,
    actualReturnDate := Option.none,
    renewalCount := 0, maxRenewals := 3,
    lastRenewalDate := Option.none,
    reservationDate := Option.some now,
    reservationExpiry := Option.some (now + 7 * msPerDay),
    fineAmount := 0, fineStatus := FineStatus.none,
    bookConditionAtBorrow := Option.none,
    bookConditionAtReturn := Option.none,
    conditionNotes := "", isDigital := false }

/-- POST books/:id/reserve: book guard, duplicate guard over active, overdue
and pending transactions, then create a pending reserve transaction. -/
def reserveOp (s : LibState) (uid bid : Nat) (now : Int) :
    LibState × Option LibErr :=
  match findUser s uid with
  | Option.none => (s, Option.some LibErr.notFound)
  | Option.some _ =>
    match findBook s bid with
    | Option.none => (s, Option.some LibErr.notFound)
    | Option.some book =>
      if !book.isActive || book.isDeleted then (s, Option.some LibErr.notFound)
      else if (s.txns.find? (fun t => (t.user == uid) && (t.book == bid) &&
                (loanStatus t.status || t.status == TxStatus.pending))).isSome then
        (s, Option.some LibErr.duplicateLoan)
      else
        let t := txPreSave true (newReserveTx s.nextTxId uid bid now) now
        ({ s with txns := s.txns ++ [t], nextTxId := s.nextTxId + 1 }, Option.none)

/-- POST books/:id/cancel-reservation: find the caller's pending reserve
transaction for this book and flip its status to cancelled. -/
def cancelReservationOp (s : LibState) (uid bid : Nat) (now : Int) :
    LibState × Option LibErr :=
  match findUser s uid with
  | Option.none => (s, Option.some LibErr.notFound)
  | Option.some _ =>
    match s.txns.find? (fun t => (t.user == uid) && (t.book == bid) &&
            (t.type == TxType.reserve) && (t.status == TxStatus.pending)) with
    | Option.none => (s, Option.some LibErr.notFound)
    | Option.some t =>
      (putTx s (txPreSave false { t with status := TxStatus.cancelled } now),
       Option.none)

/-- One lifecycle request, with the clock reading at which it arrives. -/
inductive Op where
  | borrow (uid bid : Nat) (now : Int)
  | returnById (tid : Nat) (cond : Option BookCondition) (notes : String)
      (waiveFine : Bool) (now : Int)
  | returnByBook (uid bid : Nat) (cond : Option BookCondition) (notes : String)
      (now : Int)
  | renew (uid bid : Nat) (now : Int)
  | reserve (uid bid : Nat) (now : Int)
  | cancelReservation (uid bid : Nat) (now : Int)
deriving DecidableEq, Repr

/-- Dispatch one lifecycle request to its route handler. -/
def applyOp (s : LibState) : Op → LibState × Option LibErr
  | Op.borrow uid bid now => borrowOp s uid bid now
  | Op.returnById tid cond notes w now => returnByIdOp s tid cond notes w now
  | Op.returnByBook uid bid cond notes now => returnByBookOp s uid bid cond notes now
  | Op.renew uid bid now => renewOp s uid bid now
  | Op.reserve uid bid now => reserveOp s uid bid now
  | Op.cancelReservation uid bid now => cancelReservationOp s uid bid now

/-- Run a sequence of lifecycle requests, keeping whatever state each leaves. -/
def runOps (s : LibState) (ops : List Op) : LibState :=
  ops.foldl (fun s op => (applyOp s op).1) s

/-- The number of live (active or overdue) transactions holding copies of
one book. -/
def loanCount (txns : List Transaction) (bid : Nat) : Nat :=
  txns.countP (fun t => (t.book == bid) && loanStatus t.status)

/-- Store well-formedness: transaction ids are distinct and below the
id counter. -/
def wfState (s : LibState) : Prop :=
  (s.txns.map (fun t => t.id)).Nodup ∧ ∀ t ∈ s.txns, t.id < s.nextTxId

/-- The cross-entity availability invariant of the spec. -/
def copiesInvariant (s : LibState) : Prop :=
  ∀ b ∈ s.books, 0 ≤ b.availableCopies ∧ b.availableCopies ≤ b.totalCopies ∧
    b.totalCopies - b.availableCopies = (loanCount s.txns b.id : Int)

instance : DecidablePred wfState := fun s => by
  unfold wfState; infer_instance

instance : DecidablePred copiesInvariant := fun s => by
  unfold copiesInvariant; infer_instance

/-! Concrete fixtures used to evaluate the operations on specific inputs. -/

/-- A plain borrow transaction, active, with no due date set yet. -/
def baseTx : Transaction :=
  { id := 0, user := 7, book := 1,
    type := TxType.borrow, status := TxStatus.active,
    dueDate := Option.none, returnDate := Option.none,
    actualReturnDate := Option.none,
    renewalCount := 0, maxRenewals := 3,
    lastRenewalDate := Option.none,
    reservationDate := Option.none, reservationExpiry := Option.none,
    fineAmount := 0, fineStatus := FineStatus.none,
    bookConditionAtBorrow := Option.none,
    bookConditionAtReturn := Option.none,
    conditionNotes := "", isDigital := false }

/-- An active loan whose due date passed 10 days before time zero. -/
def tLate10 : Transaction := { baseTx with dueDate := Option.some (-(10 * msPerDay)) }

/-- An active loan whose due date passed 60 days before time zero. -/
def tLate60 : Transaction := { baseTx with dueDate := Option.some (-(60 * msPerDay)) }

/-- A loan already persisted with status overdue, 10 days past due at time zero. -/
def tOver10 : Transaction := { tLate10 with status := TxStatus.overdue }

/-- A healthy catalog book with two copies, both on the shelf. -/
def bookF (i : Nat) : Book :=
  { id := i, totalCopies := 2, availableCopies := 2, isAvailable := true,
    isActive := true, isDeleted := false, condition := BookCondition.good,
    averageRating := 0, totalRatings := 0, totalReviews := 0 }

/-- A basic-tier member holding nothing. -/
def userF : User :=
  { id := 7, membershipType := Membership.basic, currentBorrowedBooks := [],
    totalBooksBorrowed := 0, totalBooksRead := 0 }

/-- Four healthy books, one basic member, no transactions. -/
def stateF : LibState :=
  { books := [bookF 1, bookF 2, bookF 3, bookF 4], users := [userF],
    txns := [], nextTxId := 0 }

/-- The basic member already holding books 1, 2 and 3 on active loans. -/
def userAtLimit : User :=
  { userF with currentBorrowedBooks := [1, 2, 3], totalBooksBorrowed := 3 }

/-- An active loan fixture for the at-limit member. -/
def loanFor (tid bid : Nat) : Transaction :=
  { baseTx with id := tid, book := bid, dueDate := Option.some (21 * msPerDay) }

/-- State in which the basic member is at the three-loan cap and book 4 is free. -/
def stateAtLimit : LibState :=
  { books := [{ bookF 1 with availableCopies := 1 },
              { bookF 2 with availableCopies := 1 },
              { bookF 3 with availableCopies := 1 }, bookF 4],
    users := [userAtLimit],
    txns := [loanFor 0 1, loanFor 1 2, loanFor 2 3], nextTxId := 3 }

/-- A transaction already returned: status completed. -/
def txCompleted : Transaction :=
  { baseTx with status := TxStatus.completed,
                dueDate := Option.some (21 * msPerDay) }

/-- State holding one already-completed transaction, the input for a
repeated return. -/
def stateCompleted : LibState :=
  { stateF with txns := [txCompleted], nextTxId := 1 }

/-- A mixed workload touching every lifecycle operation: borrow, renew,
reserve, cancel a reservation, borrow again, and two kinds of return. -/
def opsF : List Op :=
  [Op.borrow 7 1 0,
   Op.renew 7 1 msPerDay,
   Op.reserve 7 2 msPerDay,
   Op.cancelReservation 7 2 (2 * msPerDay),
   Op.borrow 7 2 (2 * msPerDay),
   Op.returnById 0 (Option.some BookCondition.good) "worn" false (30 * msPerDay),
   Op.returnByBook 7 2 Option.none "" (31 * msPerDay)]

/-- DELETE reviews/:id: soft-delete the review (status removed), then call
updateBookRatings for its book. -/
def deleteReviewOp (books : List Book) (reviews : List Review) (rid : Nat) :
    (List Book × List Review) × Option LibErr :=
  match reviews.find? (fun r => r.id == rid) with
  | Option.none => ((books, reviews), Option.some LibErr.notFound)
  | Option.some r =>
    let reviews' := reviews.map (fun x =>
      if x.id == rid then { x with status := RevStatus.removed } else x)
    ((updateBookRatings books reviews' r.book, reviews'), Option.none)

/-- A book carrying aggregates computed from one published five-star-scale
review of rating 4. -/
def bookRated : Book :=
  { bookF 1 with averageRating := 4, totalRatings := 1, totalReviews := 1 }

/-- The single published review behind bookRated's aggregates. -/
def reviewF : Review :=
  { id := 0, user := 7, book := 1, rating := 4, status := RevStatus.published }

/-- A second published review for the same book, rating 5. -/
def reviewG : Review :=
  { id := 1, user := 8, book := 1, rating := 5, status := RevStatus.published }

/-- An active loan that has already been renewed once: type renew, one
renewal recorded, due date still in the future. -/
def tRenewedOnce : Transaction :=
  { baseTx with type := TxType.renew, renewalCount := 1,
                dueDate := Option.some (10 * msPerDay) }

/-! Basic lemmas about the pre-save hooks, shared by the claim proofs. -/

theorem txHook1_false (t : Transaction) (now : Int) : txHook1 false t now = t := by
  rw [txHook1]; simp

theorem txHook1_status (n : Bool) (t : Transaction) (now : Int) :
    (txHook1 n t now).status = t.status := by
  rw [txHook1]; split <;> rfl

theorem txHook1_book (n : Bool) (t : Transaction) (now : Int) :
    (txHook1 n t now).book = t.book := by
  rw [txHook1]; split <;> rfl

theorem txHook1_user (n : Bool) (t : Transaction) (now : Int) :
    (txHook1 n t now).user = t.user := by
  rw [txHook1]; split <;> rfl

theorem txHook1_id (n : Bool) (t : Transaction) (now : Int) :
    (txHook1 n t now).id = t.id := by
  rw [txHook1]; split <;> rfl

theorem txHook2_book (t : Transaction) (now : Int) :
    (txHook2 t now).book = t.book := by
  rw [txHook2]; split <;> rfl

theorem txHook2_user (t : Transaction) (now : Int) :
    (txHook2 t now).user = t.user := by
  rw [txHook2]; split <;> rfl

theorem txHook2_id (t : Transaction) (now : Int) :
    (txHook2 t now).id = t.id := by
  rw [txHook2]; split <;> rfl

theorem txHook2_dueDate (t : Transaction) (now : Int) :
    (txHook2 t now).dueDate = t.dueDate := by
  rw [txHook2]; split <;> rfl

theorem txHook2_renewalCount (t : Transaction) (now : Int) :
    (txHook2 t now).renewalCount = t.renewalCount := by
  rw [txHook2]; split <;> rfl

theorem txHook2_type (t : Transaction) (now : Int) :
    (txHook2 t now).type = t.type := by
  rw [txHook2]; split <;> rfl

theorem txHook2_loanStatus (t : Transaction) (now : Int) :
    loanStatus (txHook2 t now).status = loanStatus t.status := by
  rw [txHook2]; split
  · next h =>
    have hst : t.status = TxStatus.active := by
      have := (Bool.and_eq_true _ _).mp h
      exact eq_of_beq this.2
    rw [hst]; rfl
  · rfl

theorem txPreSave_id (n : Bool) (t : Transaction) (now : Int) :
    (txPreSave n t now).id = t.id := by
  rw [txPreSave, txHook2_id, txHook1_id]

theorem txPreSave_book (n : Bool) (t : Transaction) (now : Int) :
    (txPreSave n t now).book = t.book := by
  rw [txPreSave, txHook2_book, txHook1_book]

theorem txPreSave_user (n : Bool) (t : Transaction) (now : Int) :
    (txPreSave n t now).user = t.user := by
  rw [txPreSave, txHook2_user, txHook1_user]

theorem txPreSave_loanStatus (n : Bool) (t : Transaction) (now : Int) :
    loanStatus (txPreSave n t now).status = loanStatus t.status := by
  rw [txPreSave, txHook2_loanStatus, txHook1_status]

theorem mapSame {α : Type} (l : List α) (f : α → α) (h : ∀ x ∈ l, f x = x) :
    l.map f = l := by
  induction l with
  | nil => rfl
  | cons a l ih =>
    rw [List.map_cons, h a (List.mem_cons_self a l),
        ih (fun x hx => h x (List.mem_cons_of_mem a hx))]

theorem findBook_update (books : List Book) (k : Nat) (g : Book → Book)
    (hg : ∀ x : Book, x.id = k → (g x).id = k) :
    (books.map (fun x => if x.id == k then g x else x)).find? (fun x => x.id == k)
      = (books.find? (fun x => x.id == k)).map g := by
  induction books with
  | nil => rfl
  | cons a l ih =>
    by_cases hak : a.id = k
    · have ha : (a.id == k) = true := beq_iff_eq.mpr hak
      have hga : ((g a).id == k) = true := beq_iff_eq.mpr (hg a hak)
      rw [List.map_cons, if_pos ha, List.find?_cons, List.find?_cons, ha, hga]
      rfl
    · have ha : (a.id == k) = false := beq_eq_false_iff_ne.mpr hak
      rw [List.map_cons, if_neg (by simp [ha]), List.find?_cons, List.find?_cons,
          ha, ih]

theorem findUser_update (users : List User) (k : Nat) (g : User → User)
    (hg : ∀ x : User, x.id = k → (g x).id = k) :
    (users.map (fun x => if x.id == k then g x else x)).find? (fun x => x.id == k)
      = (users.find? (fun x => x.id == k)).map g := by
  induction users with
  | nil => rfl
  | cons a l ih =>
    by_cases hak : a.id = k
    · have ha : (a.id == k) = true := beq_iff_eq.mpr hak
      have hga : ((g a).id == k) = true := beq_iff_eq.mpr (hg a hak)
      rw [List.map_cons, if_pos ha, List.find?_cons, List.find?_cons, ha, hga]
      rfl
    · have ha : (a.id == k) = false := beq_eq_false_iff_ne.mpr hak
      rw [List.map_cons, if_neg (by simp [ha]), List.find?_cons, List.find?_cons,
          ha, ih]

theorem ids_update (l : List Transaction) (t' : Transaction) :
    (l.map (fun x => if x.id == t'.id then t' else x)).map (fun x => x.id)
      = l.map (fun x => x.id) := by
  induction l with
  | nil => rfl
  | cons a l ih =>
    by_cases hak : a.id = t'.id
    · have ha : (a.id == t'.id) = true := beq_iff_eq.mpr hak
      rw [List.map_cons, if_pos ha, List.map_cons, List.map_cons, ih, hak]
    · have ha : (a.id == t'.id) = false := beq_eq_false_iff_ne.mpr hak
      rw [List.map_cons, if_neg (by simp [ha]), List.map_cons, List.map_cons, ih]

theorem countP_update (p : Transaction → Bool) (l : List Transaction)
    (t' t0 : Transaction)
    (hnd : (l.map (fun x => x.id)).Nodup) (hmem : t0 ∈ l) (hid : t0.id = t'.id) :
    (l.map (fun x => if x.id == t'.id then t' else x)).countP p
        + (if p t0 then 1 else 0)
      = l.countP p + (if p t' then 1 else 0) := by
  induction l with
  | nil => cases hmem
  | cons a l ih =>
    rw [List.map_cons, List.nodup_cons] at hnd
    rw [List.map_cons]
    rcases List.mem_cons.mp hmem with rfl | hmem'
    · have ha : (t0.id == t'.id) = true := beq_iff_eq.mpr hid
      rw [if_pos ha]
      rw [mapSame l _ (fun x hx => by
        have hxne : x.id ≠ t'.id := by
          intro he
          exact hnd.1 (by
            rw [← hid] at he
            rw [← he]
            exact List.mem_map.mpr ⟨x, hx, rfl⟩)
        simp [hxne])]
      rw [List.countP_cons, List.countP_cons]
      omega
    · have hane : a.id ≠ t'.id := by
        intro he
        exact hnd.1 (by
          rw [he, ← hid]
          exact List.mem_map.mpr ⟨t0, hmem', rfl⟩)
      rw [if_neg (by simp [hane])]
      rw [List.countP_cons, List.countP_cons]
      have := ih hnd.2 hmem'
      omega

theorem find?_append_of_none {α : Type} (p : α → Bool) (l₁ l₂ : List α)
    (h : l₁.find? p = Option.none) :
    (l₁ ++ l₂).find? p = l₂.find? p := by
  induction l₁ with
  | nil => rfl
  | cons a l ih =>
    cases ha : p a with
    | true => rw [List.find?_cons_of_pos _ ha] at h; cases h
    | false =>
      rw [List.find?_cons_of_neg _ (by simp [ha])] at h
      rw [List.cons_append, List.find?_cons_of_neg _ (by simp [ha]), ih h]

theorem loanCount_append (txns : List Transaction) (t : Transaction) (k : Nat) :
    loanCount (txns ++ [t]) k =
      loanCount txns k +
        (if (t.book == k) && loanStatus t.status then 1 else 0) := by
  rw [loanCount, loanCount, List.countP_append, List.countP_cons, List.countP_nil]
  omega

theorem loanCount_pos (txns : List Transaction) (t : Transaction) (k : Nat)
    (hmem : t ∈ txns) (hbk : (t.book == k) = true)
    (hls : loanStatus t.status = true) :
    0 < loanCount txns k := by
  rw [loanCount, List.countP_pos_iff]
  refine ⟨t, hmem, ?_⟩
  rw [hbk, hls]
  rfl

theorem wf_append (s : LibState) (t : Transaction) (hid : t.id = s.nextTxId)
    (hwf : wfState s) :
    wfState { s with txns := s.txns ++ [t], nextTxId := s.nextTxId + 1 } := by
  constructor
  · show ((s.txns ++ [t]).map (fun x => x.id)).Nodup
    rw [List.map_append]
    refine List.Nodup.append hwf.1 (List.nodup_singleton t.id) ?_
    intro x hx hx1
    rcases List.mem_map.mp hx with ⟨a, ha, rfl⟩
    have h : a.id = t.id := List.mem_singleton.mp hx1
    have hlt := hwf.2 a ha
    rw [h, hid] at hlt
    exact Nat.lt_irrefl _ hlt
  · intro x hx
    rcases List.mem_append.mp hx with h | h
    · exact Nat.lt_succ_of_lt (hwf.2 x h)
    · rw [List.mem_singleton.mp h, hid]
      exact Nat.lt_succ_self _

theorem wf_putTx (s : LibState) (t' : Transaction) (hwf : wfState s) :
    wfState (putTx s t') := by
  constructor
  · show ((s.txns.map (fun x => if x.id == t'.id then t' else x)).map
      (fun x => x.id)).Nodup
    rw [ids_update]
    exact hwf.1
  · intro x hx
    rcases List.mem_map.mp hx with ⟨a, ha, rfl⟩
    by_cases hc : (a.id == t'.id) = true
    · rw [if_pos hc]
      have h2 : t'.id = a.id := (beq_iff_eq.mp hc).symm
      show t'.id < s.nextTxId
      rw [h2]
      exact hwf.2 a ha
    · rw [if_neg hc]
      exact hwf.2 a ha

theorem calculateFine_fst_status (t : Transaction) (now : Int) :
    (calculateFine t now).1.status = t.status := by
  rw [calculateFine]
  split
  · rfl
  split <;> rfl

theorem calculateFine_fst_id (t : Transaction) (now : Int) :
    (calculateFine t now).1.id = t.id := by
  rw [calculateFine]
  split
  · rfl
  split <;> rfl

theorem calculateFine_fst_book (t : Transaction) (now : Int) :
    (calculateFine t now).1.book = t.book := by
  rw [calculateFine]
  split
  · rfl
  split <;> rfl

theorem calculateFine_fst_user (t : Transaction) (now : Int) :
    (calculateFine t now).1.user = t.user := by
  rw [calculateFine]
  split
  · rfl
  split <;> rfl

theorem txHook2_status_of_ne (t : Transaction) (now : Int)
    (h : t.status ≠ TxStatus.active) :
    (txHook2 t now).status = t.status := by
  rw [txHook2]
  split
  · next hc =>
    exact absurd (eq_of_beq ((Bool.and_eq_true _ _).mp hc).2) h
  · rfl

theorem save_completed_status (x : Transaction) (now : Int)
    (hx : x.status = TxStatus.completed) :
    (txPreSave false (calculateFine x now).1 now).status = TxStatus.completed := by
  have h1 : (calculateFine x now).1.status = TxStatus.completed := by
    rw [calculateFine_fst_status, hx]
  rw [txPreSave, txHook1_false,
      txHook2_status_of_ne _ _ (by rw [h1]; exact fun h => TxStatus.noConfusion h)]
  exact h1

theorem returnApplied_status (t : Transaction) (c : Option BookCondition)
    (n : String) (now : Int) :
    (returnApplied t c n now).status = TxStatus.completed := by
  rw [returnApplied.eq_def]
  apply save_completed_status
  cases c <;> split <;> rfl

theorem returnApplied_id (t : Transaction) (c : Option BookCondition)
    (n : String) (now : Int) :
    (returnApplied t c n now).id = t.id := by
  rw [returnApplied.eq_def, txPreSave, txHook1_false, txHook2_id, calculateFine_fst_id]
  cases c <;> split <;> rfl

theorem returnApplied_book (t : Transaction) (c : Option BookCondition)
    (n : String) (now : Int) :
    (returnApplied t c n now).book = t.book := by
  rw [returnApplied.eq_def, txPreSave, txHook1_false, txHook2_book, calculateFine_fst_book]
  cases c <;> split <;> rfl

theorem returnApplied_user (t : Transaction) (c : Option BookCondition)
    (n : String) (now : Int) :
    (returnApplied t c n now).user = t.user := by
  rw [returnApplied.eq_def, txPreSave, txHook1_false, txHook2_user, calculateFine_fst_user]
  cases c <;> split <;> rfl

theorem borrow_step_inv (s : LibState) (uid bid : Nat) (now : Int)
    (u : User) (book : Book)
    (hbmem : book ∈ s.books) (hbid : book.id = bid)
    (havail : 0 < book.availableCopies)
    (hwf : wfState s) (hinv : copiesInvariant s) :
    wfState (saveUser (saveBook
        { s with
            txns := s.txns ++
              [txPreSave true (newBorrowTx s.nextTxId uid bid book.condition) now]
            nextTxId := s.nextTxId + 1 }
        { book with availableCopies := book.availableCopies - 1 })
      { u with
          currentBorrowedBooks := u.currentBorrowedBooks ++ [bid]
          totalBooksBorrowed := u.totalBooksBorrowed + 1 }) ∧
    copiesInvariant (saveUser (saveBook
        { s with
            txns := s.txns ++
              [txPreSave true (newBorrowTx s.nextTxId uid bid book.condition) now]
            nextTxId := s.nextTxId + 1 }
        { book with availableCopies := book.availableCopies - 1 })
      { u with
          currentBorrowedBooks := u.currentBorrowedBooks ++ [bid]
          totalBooksBorrowed := u.totalBooksBorrowed + 1 }) := by
  constructor
  · exact wf_append s
      (txPreSave true (newBorrowTx s.nextTxId uid bid book.condition) now)
      (by rw [txPreSave_id]; rfl) hwf
  · intro b' hb'
    have hb'' : b' ∈ s.books.map (fun x =>
        if x.id == ({ book with availableCopies := book.availableCopies - 1 } : Book).id
        then bookPreSave { book with availableCopies := book.availableCopies - 1 }
        else x) := hb'
    rcases List.mem_map.mp hb'' with ⟨a, ha, rfl⟩
    have hbk : (txPreSave true (newBorrowTx s.nextTxId uid bid book.condition) now).book
        = bid := by
      rw [txPreSave_book]
      rfl
    have hls : loanStatus (txPreSave true
        (newBorrowTx s.nextTxId uid bid book.condition) now).status = true := by
      rw [txPreSave_loanStatus]
      rfl
    have hcnt : ∀ k, loanCount (s.txns ++
        [txPreSave true (newBorrowTx s.nextTxId uid bid book.condition) now]) k =
        loanCount s.txns k + (if (bid == k) then 1 else 0) := by
      intro k
      rw [loanCount_append, hbk, hls, Bool.and_true]
    by_cases hc : (a.id ==
        ({ book with availableCopies := book.availableCopies - 1 } : Book).id) = true
    · rw [if_pos hc]
      have hib := hinv book hbmem
      refine ⟨?_, ?_, ?_⟩
      · show 0 ≤ book.availableCopies - 1
        omega
      · show book.availableCopies - 1 ≤ book.totalCopies
        have h2 := hib.2.1
        omega
      · show book.totalCopies - (book.availableCopies - 1) =
          (loanCount (s.txns ++
            [txPreSave true (newBorrowTx s.nextTxId uid bid book.condition) now])
            (bookPreSave { book with availableCopies := book.availableCopies - 1 }).id
            : Int)
        rw [show (bookPreSave { book with availableCopies := book.availableCopies - 1 }).id
            = bid from hbid]
        rw [hcnt bid, if_pos (beq_iff_eq.mpr rfl)]
        have h3 := hib.2.2
        rw [hbid] at h3
        push_cast
        omega
    · rw [if_neg hc]
      have hik := hinv a ha
      have hane : (bid == a.id) = false := by
        refine beq_eq_false_iff_ne.mpr ?_
        intro he
        apply hc
        refine beq_iff_eq.mpr ?_
        show a.id = book.id
        rw [hbid, he]
      refine ⟨hik.1, hik.2.1, ?_⟩
      show a.totalCopies - a.availableCopies =
        (loanCount (s.txns ++
          [txPreSave true (newBorrowTx s.nextTxId uid bid book.condition) now])
          a.id : Int)
      rw [hcnt a.id, hane]
      have h4 := hik.2.2
      push_cast
      omega

theorem return_core_inv (s : LibState) (t t2 : Transaction) (k : Nat)
    (hmem : t ∈ s.txns) (hls : loanStatus t.status = true)
    (hid2 : t2.id = t.id) (hls2 : loanStatus t2.status = false)
    (hk : t.book = k)
    (hwf : wfState s) (hinv : copiesInvariant s) :
    wfState (match findBook (putTx s t2) k with
      | Option.some b => saveBook (putTx s t2)
          { b with availableCopies := b.availableCopies + 1 }
      | Option.none => putTx s t2) ∧
    copiesInvariant (match findBook (putTx s t2) k with
      | Option.some b => saveBook (putTx s t2)
          { b with availableCopies := b.availableCopies + 1 }
      | Option.none => putTx s t2) := by
  have hw1 : wfState (putTx s t2) := wf_putTx s t2 hwf
  have hcnt : ∀ q, loanCount (putTx s t2).txns q +
      (if (t.book == q) && loanStatus t.status then 1 else 0)
      = loanCount s.txns q := by
    intro q
    have hc := countP_update (fun x => (x.book == q) && loanStatus x.status)
      s.txns t2 t hwf.1 hmem hid2.symm
    simp only [] at hc
    have hp2 : ((t2.book == q) && loanStatus t2.status) = false := by
      rw [hls2, Bool.and_false]
    simp only [hp2, Bool.false_eq_true, if_false] at hc
    show (s.txns.map (fun x => if x.id == t2.id then t2 else x)).countP
        (fun x => (x.book == q) && loanStatus x.status) +
        (if (t.book == q) && loanStatus t.status then 1 else 0)
      = s.txns.countP (fun x => (x.book == q) && loanStatus x.status)
    omega
  cases hfb : findBook (putTx s t2) k with
  | none =>
    refine ⟨hw1, ?_⟩
    intro b' hb'
    have hb's : b' ∈ s.books := hb'
    have hik := hinv b' hb's
    have hnone := List.find?_eq_none.mp hfb
    have hne : (t.book == b'.id) = false := by
      refine beq_eq_false_iff_ne.mpr ?_
      intro he
      exact hnone b' hb's (beq_iff_eq.mpr (by rw [← he, hk]))
    have hq' : loanCount (putTx s t2).txns b'.id = loanCount s.txns b'.id := by
      have hq0 := hcnt b'.id
      rw [hne, Bool.false_and] at hq0
      simpa using hq0
    refine ⟨hik.1, hik.2.1, ?_⟩
    show b'.totalCopies - b'.availableCopies =
      (loanCount (putTx s t2).txns b'.id : Int)
    rw [hq']
    exact hik.2.2
  | some b =>
    have hbmem : b ∈ s.books := List.mem_of_find?_eq_some hfb
    have hb_id : b.id = k := by
      have h1 := List.find?_some hfb
      simpa using h1
    have hib := hinv b hbmem
    have hcpos : 0 < loanCount s.txns k :=
      loanCount_pos s.txns t k hmem (beq_iff_eq.mpr hk) hls
    refine ⟨hw1, ?_⟩
    intro b' hb'
    have hb'' : b' ∈ s.books.map (fun x =>
        if x.id == ({ b with availableCopies := b.availableCopies + 1 } : Book).id
        then bookPreSave { b with availableCopies := b.availableCopies + 1 }
        else x) := hb'
    rcases List.mem_map.mp hb'' with ⟨a, ha, rfl⟩
    by_cases hc : (a.id ==
        ({ b with availableCopies := b.availableCopies + 1 } : Book).id) = true
    · rw [if_pos hc]
      have hq : loanCount (putTx s t2).txns b.id + 1 = loanCount s.txns b.id := by
        have hq0 := hcnt b.id
        rw [show (t.book == b.id) = true from beq_iff_eq.mpr (by rw [hk, hb_id]),
            hls] at hq0
        simpa using hq0
      have h6 : 0 < loanCount s.txns b.id := by
        rw [hb_id]
        exact hcpos
      have h5 := hib.2.2
      refine ⟨?_, ?_, ?_⟩
      · show 0 ≤ b.availableCopies + 1
        have := hib.1
        omega
      · show b.availableCopies + 1 ≤ b.totalCopies
        omega
      · show b.totalCopies - (b.availableCopies + 1) =
          (loanCount (putTx s t2).txns
            (bookPreSave { b with availableCopies := b.availableCopies + 1 }).id : Int)
        have h7 : (bookPreSave { b with availableCopies := b.availableCopies + 1 }).id
            = b.id := rfl
        rw [h7]
        omega
    · rw [if_neg hc]
      have hik := hinv a ha
      have hane : a.id ≠ k := by
        intro he
        apply hc
        refine beq_iff_eq.mpr ?_
        show a.id = b.id
        rw [he, hb_id]
      have hne : (t.book == a.id) = false := by
        refine beq_eq_false_iff_ne.mpr ?_
        rw [hk]
        exact fun he => hane he.symm
      have hq' : loanCount (putTx s t2).txns a.id = loanCount s.txns a.id := by
        have hq0 := hcnt a.id
        rw [hne, Bool.false_and] at hq0
        simpa using hq0
      refine ⟨hik.1, hik.2.1, ?_⟩
      show a.totalCopies - a.availableCopies =
        (loanCount (putTx s t2).txns a.id : Int)
      rw [hq']
      exact hik.2.2

theorem borrowOp_preserves (s : LibState) (uid bid : Nat) (now : Int)
    (hwf : wfState s) (hinv : copiesInvariant s) :
    wfState (borrowOp s uid bid now).1 ∧
    copiesInvariant (borrowOp s uid bid now).1 := by
  rw [borrowOp]
  cases hfu : findUser s uid with
  | none => exact ⟨hwf, hinv⟩
  | some u =>
  cases hfb : findBook s bid with
  | none => exact ⟨hwf, hinv⟩
  | some book =>
  dsimp only
  by_cases hflags : (!book.isActive || book.isDeleted) = true
  · rw [if_pos hflags]
    exact ⟨hwf, hinv⟩
  rw [if_neg hflags]
  by_cases hcbn : (!(canBeBorrowed book)) = true
  · rw [if_pos hcbn]
    exact ⟨hwf, hinv⟩
  rw [if_neg hcbn]
  by_cases hdup : ((findLoanTx s uid bid).isSome) = true
  · rw [if_pos hdup]
    exact ⟨hwf, hinv⟩
  rw [if_neg hdup]
  have hcb : canBeBorrowed book = true := by
    revert hcbn
    cases canBeBorrowed book <;> simp
  have havail : 0 < book.availableCopies := by
    rw [canBeBorrowed] at hcb
    simp only [Bool.and_eq_true, decide_eq_true_eq] at hcb
    exact hcb.1.1.2
  have hbid : book.id = bid := by
    have h1 := List.find?_some (show s.books.find? (fun b => b.id == bid)
      = Option.some book from hfb)
    simpa using h1
  have hbmem : book ∈ s.books :=
    List.mem_of_find?_eq_some (show s.books.find? (fun b => b.id == bid)
      = Option.some book from hfb)
  exact borrow_step_inv s uid bid now u book hbmem hbid havail hwf hinv

theorem returnByIdOp_preserves (s : LibState) (tid : Nat)
    (cond : Option BookCondition) (notes : String) (w : Bool) (now : Int)
    (hwf : wfState s) (hinv : copiesInvariant s) :
    wfState (returnByIdOp s tid cond notes w now).1 ∧
    copiesInvariant (returnByIdOp s tid cond notes w now).1 := by
  rw [returnByIdOp]
  cases hft : findTx s tid with
  | none => exact ⟨hwf, hinv⟩
  | some t =>
  dsimp only
  by_cases hg : (!(loanStatus t.status)) = true
  · rw [if_pos hg]
    exact ⟨hwf, hinv⟩
  rw [if_neg hg]
  have hls : loanStatus t.status = true := by
    revert hg
    cases loanStatus t.status <;> simp
  have hmem : t ∈ s.txns := List.mem_of_find?_eq_some
    (show s.txns.find? (fun x => x.id == tid) = Option.some t from hft)
  have hid2 : (if w && decide (0 < (returnApplied t cond notes now).fineAmount)
      then txPreSave false
        { returnApplied t cond notes now with fineStatus := FineStatus.waived } now
      else returnApplied t cond notes now).id = t.id := by
    split
    · rw [txPreSave_id]
      exact returnApplied_id t cond notes now
    · exact returnApplied_id t cond notes now
  have hls2 : loanStatus (if w && decide (0 < (returnApplied t cond notes now).fineAmount)
      then txPreSave false
        { returnApplied t cond notes now with fineStatus := FineStatus.waived } now
      else returnApplied t cond notes now).status = false := by
    split
    · rw [txPreSave_loanStatus]
      show loanStatus (returnApplied t cond notes now).status = false
      rw [returnApplied_status]
      rfl
    · rw [returnApplied_status]
      rfl
  have hcore := return_core_inv s t
    (if w && decide (0 < (returnApplied t cond notes now).fineAmount)
      then txPreSave false
        { returnApplied t cond notes now with fineStatus := FineStatus.waived } now
      else returnApplied t cond notes now)
    t.book hmem hls hid2 hls2 rfl hwf hinv
  cases hfu2 : findUser (match findBook (putTx s
      (if w && decide (0 < (returnApplied t cond notes now).fineAmount)
        then txPreSave false
          { returnApplied t cond notes now with fineStatus := FineStatus.waived } now
        else returnApplied t cond notes now)) t.book with
      | Option.some b => saveBook (putTx s
          (if w && decide (0 < (returnApplied t cond notes now).fineAmount)
            then txPreSave false
              { returnApplied t cond notes now with fineStatus := FineStatus.waived } now
            else returnApplied t cond notes now))
          { b with availableCopies := b.availableCopies + 1 }
      | Option.none => putTx s
          (if w && decide (0 < (returnApplied t cond notes now).fineAmount)
            then txPreSave false
              { returnApplied t cond notes now with fineStatus := FineStatus.waived } now
            else returnApplied t cond notes now)) t.user with
  | none => exact hcore
  | some uu => exact hcore

theorem returnByBookOp_preserves (s : LibState) (uid bid : Nat)
    (cond : Option BookCondition) (notes : String) (now : Int)
    (hwf : wfState s) (hinv : copiesInvariant s) :
    wfState (returnByBookOp s uid bid cond notes now).1 ∧
    copiesInvariant (returnByBookOp s uid bid cond notes now).1 := by
  rw [returnByBookOp]
  cases hfu : findUser s uid with
  | none => exact ⟨hwf, hinv⟩
  | some u =>
  cases hft : findLoanTx s uid bid with
  | none => exact ⟨hwf, hinv⟩
  | some t =>
  dsimp only
  have hpred := List.find?_some
    (show s.txns.find? (fun x => (x.user == uid) && (x.book == bid) &&
      loanStatus x.status) = Option.some t from hft)
  simp only [Bool.and_eq_true] at hpred
  have hls : loanStatus t.status = true := hpred.2
  have hbk : t.book = bid := beq_iff_eq.mp hpred.1.2
  have hmem : t ∈ s.txns := List.mem_of_find?_eq_some
    (show s.txns.find? (fun x => (x.user == uid) && (x.book == bid) &&
      loanStatus x.status) = Option.some t from hft)
  have hid2 : (returnApplied t cond notes now).id = t.id :=
    returnApplied_id t cond notes now
  have hls2 : loanStatus (returnApplied t cond notes now).status = false := by
    rw [returnApplied_status]
    rfl
  have hcore := return_core_inv s t (returnApplied t cond notes now)
    bid hmem hls hid2 hls2 hbk hwf hinv
  cases hfb : findBook (putTx s (returnApplied t cond notes now)) bid with
  | none =>
    simp only [hfb] at hcore
    exact hcore
  | some b =>
    simp only [hfb] at hcore
    exact hcore

theorem put_same_inv (s : LibState) (t t' : Transaction)
    (hmem : t ∈ s.txns) (hid : t'.id = t.id)
    (hbk : t'.book = t.book)
    (hls : loanStatus t'.status = loanStatus t.status)
    (hwf : wfState s) (hinv : copiesInvariant s) :
    wfState (putTx s t') ∧ copiesInvariant (putTx s t') := by
  refine ⟨wf_putTx s t' hwf, ?_⟩
  intro b' hb'
  have hb's : b' ∈ s.books := hb'
  have hik := hinv b' hb's
  have hq' : loanCount (putTx s t').txns b'.id = loanCount s.txns b'.id := by
    have hc := countP_update (fun x => (x.book == b'.id) && loanStatus x.status)
      s.txns t' t hwf.1 hmem hid.symm
    simp only [] at hc
    simp only [hbk, hls] at hc
    show (s.txns.map (fun x => if x.id == t'.id then t' else x)).countP
        (fun x => (x.book == b'.id) && loanStatus x.status)
      = s.txns.countP (fun x => (x.book == b'.id) && loanStatus x.status)
    omega
  refine ⟨hik.1, hik.2.1, ?_⟩
  show b'.totalCopies - b'.availableCopies =
    (loanCount (putTx s t').txns b'.id : Int)
  rw [hq']
  exact hik.2.2

theorem append_uncounted_inv (s : LibState) (t : Transaction)
    (hid : t.id = s.nextTxId)
    (hls : loanStatus t.status = false)
    (hwf : wfState s) (hinv : copiesInvariant s) :
    wfState { s with txns := s.txns ++ [t], nextTxId := s.nextTxId + 1 } ∧
    copiesInvariant { s with txns := s.txns ++ [t], nextTxId := s.nextTxId + 1 } := by
  refine ⟨wf_append s t hid hwf, ?_⟩
  intro b' hb'
  have hb's : b' ∈ s.books := hb'
  have hik := hinv b' hb's
  refine ⟨hik.1, hik.2.1, ?_⟩
  show b'.totalCopies - b'.availableCopies =
    (loanCount (s.txns ++ [t]) b'.id : Int)
  rw [loanCount_append]
  simp only [hls, Bool.and_false, Bool.false_eq_true, if_false, Nat.add_zero]
  exact hik.2.2

theorem renewOp_preserves (s : LibState) (uid bid : Nat) (now : Int)
    (hwf : wfState s) (hinv : copiesInvariant s) :
    wfState (renewOp s uid bid now).1 ∧
    copiesInvariant (renewOp s uid bid now).1 := by
  rw [renewOp]
  cases hfu : findUser s uid with
  | none => exact ⟨hwf, hinv⟩
  | some u =>
  cases hft : findLoanTx s uid bid with
  | none => exact ⟨hwf, hinv⟩
  | some t =>
  dsimp only
  by_cases hcr : (!(canRenewB t now)) = true
  · rw [if_pos hcr]
    exact ⟨hwf, hinv⟩
  rw [if_neg hcr]
  have hmem : t ∈ s.txns := List.mem_of_find?_eq_some
    (show s.txns.find? (fun x => (x.user == uid) && (x.book == bid) &&
      loanStatus x.status) = Option.some t from hft)
  refine put_same_inv s t (txPreSave false (renewApplied t now 14) now)
    hmem ?_ ?_ ?_ hwf hinv
  · rw [txPreSave_id]
    rfl
  · rw [txPreSave_book]
    rfl
  · rw [txPreSave_loanStatus]
    rfl

theorem reserveOp_preserves (s : LibState) (uid bid : Nat) (now : Int)
    (hwf : wfState s) (hinv : copiesInvariant s) :
    wfState (reserveOp s uid bid now).1 ∧
    copiesInvariant (reserveOp s uid bid now).1 := by
  rw [reserveOp]
  cases hfu : findUser s uid with
  | none => exact ⟨hwf, hinv⟩
  | some u =>
  cases hfb : findBook s bid with
  | none => exact ⟨hwf, hinv⟩
  | some book =>
  dsimp only
  by_cases hflags : (!book.isActive || book.isDeleted) = true
  · rw [if_pos hflags]
    exact ⟨hwf, hinv⟩
  rw [if_neg hflags]
  by_cases hdup : ((s.txns.find? (fun t => (t.user == uid) && (t.book == bid) &&
      (loanStatus t.status || t.status == TxStatus.pending))).isSome) = true
  · rw [if_pos hdup]
    exact ⟨hwf, hinv⟩
  rw [if_neg hdup]
  refine append_uncounted_inv s (txPreSave true (newReserveTx s.nextTxId uid bid now) now)
    ?_ ?_ hwf hinv
  · rw [txPreSave_id]
    rfl
  · rw [txPreSave_loanStatus]
    rfl

theorem cancelReservationOp_preserves (s : LibState) (uid bid : Nat) (now : Int)
    (hwf : wfState s) (hinv : copiesInvariant s) :
    wfState (cancelReservationOp s uid bid now).1 ∧
    copiesInvariant (cancelReservationOp s uid bid now).1 := by
  rw [cancelReservationOp]
  cases hfu : findUser s uid with
  | none => exact ⟨hwf, hinv⟩
  | some u =>
  cases hft : s.txns.find? (fun t => (t.user == uid) && (t.book == bid) &&
      (t.type == TxType.reserve) && (t.status == TxStatus.pending)) with
  | none => exact ⟨hwf, hinv⟩
  | some t =>
  dsimp only
  have hpred := List.find?_some hft
  simp only [Bool.and_eq_true] at hpred
  have hstatus : t.status = TxStatus.pending := eq_of_beq hpred.2
  have hmem : t ∈ s.txns := List.mem_of_find?_eq_some hft
  refine put_same_inv s t
    (txPreSave false { t with status := TxStatus.cancelled } now)
    hmem ?_ ?_ ?_ hwf hinv
  · rw [txPreSave_id]
  · rw [txPreSave_book]
  · rw [txPreSave_loanStatus, hstatus]
    rfl

theorem applyOp_preserves (s : LibState) (op : Op)
    (hwf : wfState s) (hinv : copiesInvariant s) :
    wfState (applyOp s op).1 ∧ copiesInvariant (applyOp s op).1 := by
  cases op with
  | borrow uid bid now => exact borrowOp_preserves s uid bid now hwf hinv
  | returnById tid cond notes w now =>
    exact returnByIdOp_preserves s tid cond notes w now hwf hinv
  | returnByBook uid bid cond notes now =>
    exact returnByBookOp_preserves s uid bid cond notes now hwf hinv
  | renew uid bid now => exact renewOp_preserves s uid bid now hwf hinv
  | reserve uid bid now => exact reserveOp_preserves s uid bid now hwf hinv
  | cancelReservation uid bid now =>
    exact cancelReservationOp_preserves s uid bid now hwf hinv

theorem runOps_preserves (s : LibState) (ops : List Op)
    (hwf : wfState s) (hinv : copiesInvariant s) :
    wfState (runOps s ops) ∧ copiesInvariant (runOps s ops) := by
  induction ops generalizing s with
  | nil => exact ⟨hwf, hinv⟩
  | cons op ops ih =>
    have h := applyOp_preserves s op hwf hinv
    exact ih (applyOp s op).1 h.1 h.2

theorem borrow_success (s : LibState) (uid bid : Nat) (now : Int)
    (u : User) (book : Book)
    (hfu : findUser s uid = Option.some u)
    (hfb : findBook s bid = Option.some book)
    (hbA : book.isActive = true) (hbD : book.isDeleted = false)
    (hcb : canBeBorrowed book = true)
    (hdup : findLoanTx s uid bid = Option.none) :
    borrowOp s uid bid now =
      (saveUser
        (saveBook
          { s with
              txns := s.txns ++
                [txPreSave true (newBorrowTx s.nextTxId uid bid book.condition) now],
              nextTxId := s.nextTxId + 1 }
          { book with availableCopies := book.availableCopies - 1 })
        { u with currentBorrowedBooks := u.currentBorrowedBooks ++ [bid],
                 totalBooksBorrowed := u.totalBooksBorrowed + 1 },
       Option.none) := by
  rw [borrowOp, hfu, hfb]
  simp only [hbA, hbD, hcb, hdup]
  rfl

theorem newBorrow_hook1 (tid uid bid : Nat) (c : BookCondition) (now : Int) :
    txHook1 true (newBorrowTx tid uid bid c) now =
      { newBorrowTx tid uid bid c with
          dueDate := Option.some (now + 21 * msPerDay) } := rfl

theorem newBorrow_presave (tid uid bid : Nat) (c : BookCondition) (now : Int) :
    txPreSave true (newBorrowTx tid uid bid c) now =
      { newBorrowTx tid uid bid c with
          dueDate := Option.some (now + 21 * msPerDay) } := by
  have hlt : ¬ (now + 21 * msPerDay < now) := by
    rw [show msPerDay = 86400000 from rfl]
    omega
  have hov : isOverdueB
      { newBorrowTx tid uid bid c with
          dueDate := Option.some (now + 21 * msPerDay) } now = false := by
    show (decide (now + 21 * msPerDay < now) &&
          (TxStatus.active == TxStatus.active)) = false
    rw [decide_eq_false hlt]
    rfl
  rw [txPreSave, newBorrow_hook1, txHook2]
  simp [hov]

theorem findBook_saveBook (X : LibState) (bInc : Book) (k : Nat) (b1 : Book)
    (hid : bInc.id = k)
    (hfind : findBook X k = Option.some b1) :
    findBook (saveBook X bInc) k = Option.some (bookPreSave bInc) := by
  show (X.books.map (fun x =>
      if x.id == bInc.id then bookPreSave bInc else x)).find?
      (fun x => x.id == k) = _
  have hsame : (fun x : Book => if x.id == bInc.id then bookPreSave bInc else x)
      = (fun x : Book => if x.id == k then bookPreSave bInc else x) := by
    rw [hid]
  rw [hsame]
  rw [findBook_update X.books k (fun _ => bookPreSave bInc) (fun x hx => hid)]
  rw [show X.books.find? (fun x => x.id == k) = Option.some b1 from hfind,
      Option.map_some']

theorem returnById_success_effects (s : LibState) (tid : Nat) (t : Transaction)
    (cond : Option BookCondition) (notes : String) (now' : Int) (b0 : Book)
    (hft : findTx s tid = Option.some t)
    (hst : t.status = TxStatus.active)
    (hfbk : findBook (putTx s (returnApplied t cond notes now')) t.book
      = Option.some b0) :
    (returnByIdOp s tid cond notes false now').2 = Option.none
  ∧ findBook (returnByIdOp s tid cond notes false now').1 t.book
      = Option.some (bookPreSave
          { b0 with availableCopies := b0.availableCopies + 1 }) := by
  have hb0id : b0.id = t.book := by
    have h1 := List.find?_some
      (show (putTx s (returnApplied t cond notes now')).books.find?
        (fun b => b.id == t.book) = Option.some b0 from hfbk)
    simpa using h1
  rw [returnByIdOp, hft]
  dsimp only
  have hg : (!(loanStatus t.status)) = false := by
    rw [loanStatus, hst]
    rfl
  rw [if_neg (by rw [hg]; exact Bool.false_ne_true)]
  simp only [Bool.false_and, Bool.false_eq_true, if_false]
  rw [hfbk]
  dsimp only
  constructor
  · cases findUser (saveBook (putTx s (returnApplied t cond notes now'))
      { b0 with availableCopies := b0.availableCopies + 1 }) t.user <;> trivial
  · have hcore : findBook (saveBook (putTx s (returnApplied t cond notes now'))
        { b0 with availableCopies := b0.availableCopies + 1 }) t.book
        = Option.some (bookPreSave
            { b0 with availableCopies := b0.availableCopies + 1 }) := by
      refine findBook_saveBook _ _ _ b0 ?_ ?_
      · exact hb0id
      · exact hfbk
    cases hfu2 : findUser (saveBook (putTx s (returnApplied t cond notes now'))
        { b0 with availableCopies := b0.availableCopies + 1 }) t.user with
    | none => exact hcore
    | some uu => exact hcore

/-- C6: a Return on a transaction that is neither active nor overdue (for
example already completed) fails with NotActive before any mutation, so the
whole state, book and user included, is returned unchanged. -/
theorem c6_return_not_active (s : LibState) (tid : Nat) (t : Transaction)
    (cond : Option BookCondition) (notes : String) (waive : Bool) (now : Int)
    (hfind : findTx s tid = Option.some t)
    (hna : t.status ≠ TxStatus.active) (hno : t.status ≠ TxStatus.overdue) :
    returnByIdOp s tid cond notes waive now = (s, Option.some LibErr.notActive) := by
  have hls : loanStatus t.status = false := by
    rw [loanStatus]
    simp [hna, hno]
  rw [returnByIdOp, hfind]
  simp [hls]

/-- C6 witness: repeating a return on an already completed transaction
fails with NotActive and leaves the state exactly as it was. -/
theorem c6_witness :
    returnByIdOp stateCompleted 0 Option.none "" false 0
      = (stateCompleted, Option.some LibErr.notActive) :=
  c6_return_not_active stateCompleted 0 txCompleted Option.none "" false 0
    (by decide) (by decide) (by decide)

/-- C1: returning a loan 10 or 60 days past due is claimed to set
fineAmount to min(daysOverdue times 0.50, 25.00) with fineStatus pending;
the code instead always completes the return with fineAmount 0 and
fineStatus none, because returnBook flips status to completed before
calculateFine runs, isOverdue requires status active, and daysOverdue
requires status overdue, so no status can ever yield a positive fine. -/
theorem c1_return_fine_is_zero :
    ((returnBookM tLate10 Option.none "" 0).toOption.map
        (fun t => (t.fineAmount, t.fineStatus)) =
      Option.some ((0 : ℚ), FineStatus.none))
  ∧ ((returnBookM tLate60 Option.none "" 0).toOption.map
        (fun t => (t.fineAmount, t.fineStatus)) =
      Option.some ((0 : ℚ), FineStatus.none))
  ∧ (calculateFine tOver10 0).2 = 0
  ∧ daysOverdue tOver10 0 = 10 := by
  refine ⟨by decide, by decide, by decide, ?_⟩
  rw [daysOverdue]
  norm_num [tOver10, tLate10, baseTx, msPerDay]

/-- C2: starting from any well-formed state satisfying the availability
invariant, every sequence of lifecycle requests (borrow, both returns,
renew, reserve, cancel-reservation) keeps, for every book,
0 <= availableCopies <= totalCopies and totalCopies - availableCopies equal
to the number of that book's transactions in status active or overdue. -/
theorem c2_copies_invariant_preserved (s : LibState) (ops : List Op)
    (hwf : wfState s) (hinv : copiesInvariant s) :
    ∀ b ∈ (runOps s ops).books,
      0 ≤ b.availableCopies ∧ b.availableCopies ≤ b.totalCopies ∧
      b.totalCopies - b.availableCopies =
        (loanCount (runOps s ops).txns b.id : Int) :=
  (runOps_preserves s ops hwf hinv).2

/-- C2 witness: the healthy fixture state is well formed and satisfies the
invariant, and the invariant still holds after a workload that exercises
every lifecycle operation. -/
theorem c2_witness :
    wfState stateF ∧ copiesInvariant stateF ∧
    copiesInvariant (runOps stateF opsF) := by
  refine ⟨by decide, by decide, ?_⟩
  exact c2_copies_invariant_preserved stateF opsF (by decide) (by decide)

/-- C3: a basic member at the three-loan cap (three active loans) is claimed
to receive LimitExceeded on a further borrow with no transaction created;
the borrow route never consults the borrowing-limits middleware, so the
fourth borrow succeeds and a fourth transaction is created, even though the
middleware predicate rejects this user. -/
theorem c3_borrow_ignores_limit :
    checkBorrowingLimits userAtLimit = false
  ∧ membershipLimit userAtLimit.membershipType = 3
  ∧ stateAtLimit.txns.countP
      (fun t => (t.user == userAtLimit.id) && loanStatus t.status) = 3
  ∧ (borrowOp stateAtLimit userAtLimit.id 4 0).2 = Option.none
  ∧ (borrowOp stateAtLimit userAtLimit.id 4 0).1.txns.length = 4 := by decide

/-- C4 counterexample: an active loan that was renewed once has type renew,
renewalCount 1 < 3 and a future due date, yet a further renew fails,
because canRenew also requires type borrow. -/
theorem c4_counterexample :
    tRenewedOnce.status = TxStatus.active
  ∧ tRenewedOnce.renewalCount < 3
  ∧ tRenewedOnce.dueDate = Option.some (10 * msPerDay)
  ∧ (0 : Int) < 10 * msPerDay
  ∧ renewM tRenewedOnce 0 14 = Except.error "Transaction cannot be renewed" :=
  ⟨rfl, by decide, rfl, by decide, rfl⟩

/-- C4 amended: renew succeeds and increments renewalCount whenever the
transaction has type borrow, is active, has renewalCount below maxRenewals
(3 by default) and a due date in the future; it retags the transaction as
type renew, so only the first renewal can meet the precondition; and any
call with renewalCount at or above maxRenewals fails with NotRenewable. -/
theorem c4_renew_amended (t : Transaction) (now d days : Int) :
    (t.type = TxType.borrow → t.status = TxStatus.active →
     t.renewalCount < t.maxRenewals → t.dueDate = Option.some d → now < d →
     ∃ t', renewM t now days = Except.ok t' ∧
       t'.renewalCount = t.renewalCount + 1 ∧ t'.type = TxType.renew)
  ∧ (t.maxRenewals ≤ t.renewalCount →
     renewM t now days = Except.error "Transaction cannot be renewed") := by
  constructor
  · intro hty hst hcnt hdue hnow
    have hcan : canRenewB t now = true := by
      rw [canRenewB, hty, hst, hdue]
      simp [hcnt, hnow]
    refine ⟨txPreSave false (renewApplied t now days) now, ?_, ?_, ?_⟩
    · rw [renewM, hcan]; rfl
    · rw [txPreSave, txHook1_false, txHook2_renewalCount]; rfl
    · rw [txPreSave, txHook1_false, txHook2_type]; rfl
  · intro h
    have hcan : canRenewB t now = false := by
      rw [canRenewB]
      simp [Nat.not_lt.mpr h]
    rw [renewM, hcan]; rfl

/-- C4 witness: a fresh active borrow due in 21 days renews successfully,
ending with renewalCount 1 and type renew. -/
theorem c4_witness :
    (loanFor 0 1).type = TxType.borrow
  ∧ (loanFor 0 1).status = TxStatus.active
  ∧ (loanFor 0 1).renewalCount < (loanFor 0 1).maxRenewals
  ∧ (renewM (loanFor 0 1) 0 14).toOption.map
      (fun t => (t.renewalCount, t.type)) = Option.some (1, TxType.renew) := by
  refine ⟨rfl, rfl, by decide, ?_⟩
  obtain ⟨t', heq, hcnt, hty⟩ :=
    (c4_renew_amended (loanFor 0 1) 0 (21 * msPerDay) 14).1 rfl rfl
      (by decide) rfl (by decide)
  rw [heq]
  show Option.some (t'.renewalCount, t'.type) = _
  rw [hcnt, hty]
  rfl

/-- C7: overdue is a pure derived view: a transaction is in findOverdue
exactly when it is stored, active, and past due; the isOverdue virtual
holds exactly when a due date exists, is past, and status is active; and a
transaction already persisted as overdue has isOverdue false. -/
theorem c7_overdue_derived (t : Transaction) (txns : List Transaction) (now : Int) :
    (t ∈ findOverdue txns now ↔
       t ∈ txns ∧ t.status = TxStatus.active ∧
       ∃ d, t.dueDate = Option.some d ∧ d < now)
  ∧ (isOverdueB t now = true ↔
       t.status = TxStatus.active ∧ ∃ d, t.dueDate = Option.some d ∧ d < now)
  ∧ (t.status = TxStatus.overdue → isOverdueB t now = false) := by
  refine ⟨?_, ?_, ?_⟩
  · rw [findOverdue, List.mem_filter]
    cases hdd : t.dueDate <;> simp [hdd]
  · rw [isOverdueB]
    cases hdd : t.dueDate <;> simp [hdd]
    tauto
  · intro h
    rw [isOverdueB]
    cases hdd : t.dueDate <;> simp [hdd, h]

/-- C7 witness: a transaction persisted with status overdue reports
isOverdue false even though its due date is 10 days past. -/
theorem c7_witness : isOverdueB tOver10 0 = false :=
  (c7_overdue_derived tOver10 [] 0).2.2 rfl

/-- C8: under the Borrow preconditions, Borrow followed by Return of the
created transaction both succeed and leave the book's availableCopies at
exactly its value before the Borrow. -/
theorem c8_borrow_return_net_zero (s : LibState) (uid bid : Nat)
    (now now' : Int) (u : User) (book : Book)
    (cond : Option BookCondition) (notes : String)
    (hwf : wfState s)
    (hfu : findUser s uid = Option.some u)
    (hfb : findBook s bid = Option.some book)
    (hbA : book.isActive = true) (hbD : book.isDeleted = false)
    (hcb : canBeBorrowed book = true)
    (hdup : findLoanTx s uid bid = Option.none) :
    (borrowOp s uid bid now).2 = Option.none
  ∧ (returnByIdOp (borrowOp s uid bid now).1 s.nextTxId cond notes false now').2
      = Option.none
  ∧ ∃ b2, findBook
      (returnByIdOp (borrowOp s uid bid now).1 s.nextTxId cond notes false now').1
      bid = Option.some b2 ∧ b2.availableCopies = book.availableCopies := by
  have hfb' : s.books.find? (fun b => b.id == bid) = Option.some book := hfb
  have hbid : book.id = bid := by
    have h1 := List.find?_some hfb'
    simpa using h1
  have hS1 := borrow_success s uid bid now u book hfu hfb hbA hbD hcb hdup
  have htN_id : (txPreSave true
      (newBorrowTx s.nextTxId uid bid book.condition) now).id = s.nextTxId := by
    rw [txPreSave_id]
    rfl
  have htN_st : (txPreSave true
      (newBorrowTx s.nextTxId uid bid book.condition) now).status
      = TxStatus.active := by
    rw [newBorrow_presave]
    rfl
  have htN_bk : (txPreSave true
      (newBorrowTx s.nextTxId uid bid book.condition) now).book = bid := by
    rw [txPreSave_book]
    rfl
  have hnone : s.txns.find? (fun x => x.id == s.nextTxId) = Option.none := by
    apply List.find?_eq_none.mpr
    intro x hx
    have hlt := hwf.2 x hx
    simp only [beq_iff_eq]
    omega
  have hftx : findTx (borrowOp s uid bid now).1 s.nextTxId = Option.some
      (txPreSave true (newBorrowTx s.nextTxId uid bid book.condition) now) := by
    rw [hS1]
    show (s.txns ++
      [txPreSave true (newBorrowTx s.nextTxId uid bid book.condition) now]).find?
      (fun x => x.id == s.nextTxId) = _
    rw [find?_append_of_none (fun x => x.id == s.nextTxId) s.txns _ hnone]
    rw [List.find?_cons]
    rw [show ((txPreSave true
        (newBorrowTx s.nextTxId uid bid book.condition) now).id == s.nextTxId)
        = true from beq_iff_eq.mpr htN_id]
  have hfbS1 : findBook (borrowOp s uid bid now).1 bid = Option.some
      (bookPreSave { book with availableCopies := book.availableCopies - 1 }) := by
    rw [hS1]
    show (s.books.map (fun x =>
        if x.id == ({ book with availableCopies := book.availableCopies - 1} : Book).id
        then bookPreSave { book with availableCopies := book.availableCopies - 1 }
        else x)).find? (fun x => x.id == bid) = _
    have hsame : (fun x : Book =>
        if x.id == ({ book with availableCopies := book.availableCopies - 1} : Book).id
        then bookPreSave { book with availableCopies := book.availableCopies - 1 }
        else x) = (fun x : Book =>
        if x.id == bid
        then bookPreSave { book with availableCopies := book.availableCopies - 1 }
        else x) := by
      rw [show ({ book with availableCopies := book.availableCopies - 1} : Book).id
            = bid from hbid]
    rw [hsame]
    rw [findBook_update s.books bid
        (fun _ => bookPreSave { book with availableCopies := book.availableCopies - 1 })
        (fun x hx => hbid)]
    rw [hfb', Option.map_some']
  have hfbk : findBook (putTx (borrowOp s uid bid now).1
      (returnApplied (txPreSave true
        (newBorrowTx s.nextTxId uid bid book.condition) now) cond notes now'))
      (txPreSave true (newBorrowTx s.nextTxId uid bid book.condition) now).book
      = Option.some
        (bookPreSave { book with availableCopies := book.availableCopies - 1 }) := by
    rw [htN_bk]
    exact hfbS1
  have heff := returnById_success_effects (borrowOp s uid bid now).1 s.nextTxId
    (txPreSave true (newBorrowTx s.nextTxId uid bid book.condition) now)
    cond notes now'
    (bookPreSave { book with availableCopies := book.availableCopies - 1 })
    hftx htN_st hfbk
  refine ⟨by rw [hS1], heff.1, ?_⟩
  have h2 := heff.2
  rw [htN_bk] at h2
  refine ⟨_, h2, ?_⟩
  show book.availableCopies - 1 + 1 = book.availableCopies
  omega

/-- C8 witness: in the healthy fixture state, borrowing book 1 and then
returning the created transaction reports success twice and restores the
book's availableCopies to its original value 2. -/
theorem c8_witness :
    (borrowOp stateF 7 1 0).2 = Option.none
  ∧ (returnByIdOp (borrowOp stateF 7 1 0).1 stateF.nextTxId Option.none ""
      false (5 * msPerDay)).2 = Option.none
  ∧ ((findBook (returnByIdOp (borrowOp stateF 7 1 0).1 stateF.nextTxId
      Option.none "" false (5 * msPerDay)).1 1).map
      (fun b => b.availableCopies) = Option.some (bookF 1).availableCopies) := by
  obtain ⟨h1, h2, b2, h3, h4⟩ := c8_borrow_return_net_zero stateF 7 1 0
    (5 * msPerDay) userF (bookF 1) Option.none "" (by decide) (by decide)
    (by decide) (by decide) (by decide) (by decide) (by decide)
  refine ⟨h1, h2, ?_⟩
  rw [h3, Option.map_some', h4]

/-- C9 counterexample: deleting the only published review of a book leaves
the book's averageRating at 4 and totalRatings at 1, while the set of
published reviews is now empty, because updateBookRatings returns without
touching the book when no published reviews remain. -/
theorem c9_counterexample :
    (deleteReviewOp [bookRated] [reviewF] 0).2 = Option.none
  ∧ publishedFor ((deleteReviewOp [bookRated] [reviewF] 0).1.2) 1 = []
  ∧ (deleteReviewOp [bookRated] [reviewF] 0).1.1 = [bookRated]
  ∧ bookRated.totalRatings = 1
  ∧ bookRated.averageRating = 4 := by decide

/-- C9 amended: after a review write, whenever at least one published review
remains for the book, the book's averageRating becomes the mean of the
published ratings rounded to one decimal and totalRatings and totalReviews
become the published count; when no published review remains (in particular
after deleting the book's last published review) the book document is left
unchanged. -/
theorem c9_ratings_amended (books : List Book) (reviews : List Review) (bid : Nat) :
    (publishedFor reviews bid = [] → updateBookRatings books reviews bid = books)
  ∧ (∀ b, publishedFor reviews bid ≠ [] →
      books.find? (fun x => x.id == bid) = Option.some b →
      (updateBookRatings books reviews bid).find? (fun x => x.id == bid) =
        Option.some { b with
          averageRating := round1
            (((publishedFor reviews bid).map (fun r => r.rating)).sum /
              ((publishedFor reviews bid).length : ℚ)),
          totalRatings := (publishedFor reviews bid).length,
          totalReviews := (publishedFor reviews bid).length })
  ∧ (∀ rid r, reviews.find? (fun x => x.id == rid) = Option.some r →
      publishedFor (reviews.map (fun x =>
          if x.id == rid then { x with status := RevStatus.removed } else x))
        r.book = [] →
      (deleteReviewOp books reviews rid).1.1 = books) := by
  refine ⟨?_, ?_, ?_⟩
  · intro h
    rw [updateBookRatings]
    simp [h]
  · intro b hne hfind
    have hlen : ¬ (publishedFor reviews bid).length = 0 := by
      intro h0
      exact hne (List.length_eq_zero.mp h0)
    rw [updateBookRatings]
    simp only [if_neg hlen]
    rw [findBook_update books bid _ (fun x hx => by
      by_cases hxb : (x.id == bid) = true
      · simp [hxb, hx]
      · simp [hxb, hx])]
    rw [hfind, Option.map_some']
  · intro rid r hfind hempty
    rw [deleteReviewOp, hfind]
    simp only
    rw [updateBookRatings]
    rw [hempty]
    simp

/-- C9 witness: with two published reviews (ratings 4 and 5) the book found
after updateBookRatings carries the rounded mean and the count 2. -/
theorem c9_witness :
    (updateBookRatings [bookRated] [reviewF, reviewG] 1).find? (fun x => x.id == 1)
      = Option.some { bookRated with
          averageRating := round1
            (((publishedFor [reviewF, reviewG] 1).map (fun r => r.rating)).sum /
              ((publishedFor [reviewF, reviewG] 1).length : ℚ)),
          totalRatings := (publishedFor [reviewF, reviewG] 1).length,
          totalReviews := (publishedFor [reviewF, reviewG] 1).length } :=
  (c9_ratings_amended [bookRated] [reviewF, reviewG] 1).2.1 bookRated
    (by decide) rfl

/-- C5: when the book exists, is active, not deleted and borrowable and the
user holds no live transaction for it, Borrow succeeds, appends a borrow
transaction that is active, owned by this user and book, and due 21 days
out (the physical default; the hook gives 14 days for a digital copy),
decrements the book's availableCopies by one, appends the book to the
user's currentBorrowedBooks, and increments totalBooksBorrowed. -/
theorem c5_borrow_effects (s : LibState) (uid bid : Nat) (now : Int)
    (u : User) (book : Book)
    (hfu : findUser s uid = Option.some u)
    (hfb : findBook s bid = Option.some book)
    (hbA : book.isActive = true) (hbD : book.isDeleted = false)
    (hcb : canBeBorrowed book = true)
    (hdup : findLoanTx s uid bid = Option.none) :
    (borrowOp s uid bid now).2 = Option.none
  ∧ (∃ tN, (borrowOp s uid bid now).1.txns = s.txns ++ [tN]
      ∧ tN.type = TxType.borrow ∧ tN.status = TxStatus.active
      ∧ tN.user = uid ∧ tN.book = bid
      ∧ tN.dueDate = Option.some (now + 21 * msPerDay))
  ∧ (∃ b', findBook (borrowOp s uid bid now).1 bid = Option.some b'
      ∧ b'.availableCopies = book.availableCopies - 1)
  ∧ (∃ u', findUser (borrowOp s uid bid now).1 uid = Option.some u'
      ∧ u'.currentBorrowedBooks = u.currentBorrowedBooks ++ [bid]
      ∧ u'.totalBooksBorrowed = u.totalBooksBorrowed + 1)
  ∧ (∀ tD : Transaction, tD.type = TxType.borrow → tD.dueDate = Option.none →
      tD.isDigital = true →
      (txPreSave true tD now).dueDate = Option.some (now + 14 * msPerDay)) := by
  have hfb' : s.books.find? (fun b => b.id == bid) = Option.some book := hfb
  have hfu' : s.users.find? (fun x => x.id == uid) = Option.some u := hfu
  have hbid : book.id = bid := by
    have h1 := List.find?_some hfb'
    simpa using h1
  have huid : u.id = uid := by
    have h1 := List.find?_some hfu'
    simpa using h1
  rw [borrow_success s uid bid now u book hfu hfb hbA hbD hcb hdup]
  refine ⟨rfl,
    ⟨txPreSave true (newBorrowTx s.nextTxId uid bid book.condition) now,
     rfl, ?_, ?_, ?_, ?_, ?_⟩, ?_, ?_, ?_⟩
  · rw [newBorrow_presave]
    rfl
  · rw [newBorrow_presave]
    rfl
  · rw [newBorrow_presave]
    rfl
  · rw [newBorrow_presave]
    rfl
  · rw [newBorrow_presave]
  · refine ⟨bookPreSave { book with availableCopies := book.availableCopies - 1 },
      ?_, rfl⟩
    show (s.books.map (fun x =>
        if x.id == ({ book with availableCopies := book.availableCopies - 1} : Book).id
        then bookPreSave { book with availableCopies := book.availableCopies - 1 }
        else x)).find? (fun x => x.id == bid) = _
    have hsame : (fun x : Book =>
        if x.id == ({ book with availableCopies := book.availableCopies - 1} : Book).id
        then bookPreSave { book with availableCopies := book.availableCopies - 1 }
        else x) = (fun x : Book =>
        if x.id == bid
        then bookPreSave { book with availableCopies := book.availableCopies - 1 }
        else x) := by
      rw [show ({ book with availableCopies := book.availableCopies - 1} : Book).id
            = bid from hbid]
    rw [hsame]
    rw [findBook_update s.books bid
        (fun _ => bookPreSave { book with availableCopies := book.availableCopies - 1 })
        (fun x hx => hbid)]
    rw [hfb', Option.map_some']
  · refine ⟨{ u with
        currentBorrowedBooks := u.currentBorrowedBooks ++ [bid]
        totalBooksBorrowed := u.totalBooksBorrowed + 1 }, ?_, rfl, rfl⟩
    show (s.users.map (fun x =>
        if x.id == ({ u with
            currentBorrowedBooks := u.currentBorrowedBooks ++ [bid]
            totalBooksBorrowed := u.totalBooksBorrowed + 1 } : User).id
        then { u with
            currentBorrowedBooks := u.currentBorrowedBooks ++ [bid]
            totalBooksBorrowed := u.totalBooksBorrowed + 1 }
        else x)).find? (fun x => x.id == uid) = _
    have hsame : (fun x : User =>
        if x.id == ({ u with
            currentBorrowedBooks := u.currentBorrowedBooks ++ [bid]
            totalBooksBorrowed := u.totalBooksBorrowed + 1 } : User).id
        then { u with
            currentBorrowedBooks := u.currentBorrowedBooks ++ [bid]
            totalBooksBorrowed := u.totalBooksBorrowed + 1 }
        else x) = (fun x : User =>
        if x.id == uid
        then { u with
            currentBorrowedBooks := u.currentBorrowedBooks ++ [bid]
            totalBooksBorrowed := u.totalBooksBorrowed + 1 }
        else x) := by
      rw [show ({ u with
            currentBorrowedBooks := u.currentBorrowedBooks ++ [bid]
            totalBooksBorrowed := u.totalBooksBorrowed + 1 } : User).id
            = uid from huid]
    rw [hsame]
    rw [findUser_update s.users uid
        (fun _ => { u with
            currentBorrowedBooks := u.currentBorrowedBooks ++ [bid]
            totalBooksBorrowed := u.totalBooksBorrowed + 1 })
        (fun x hx => huid)]
    rw [hfu', Option.map_some']
  · intro tD hty hdd hdig
    rw [txPreSave, txHook2_dueDate, txHook1]
    rw [if_pos (by rw [hty, hdd]; rfl)]
    show Option.some (now + (if tD.isDigital then 14 else 21) * msPerDay) = _
    rw [hdig]
    rfl

/-- C5 witness: in the healthy fixture state, member 7 borrowing book 1 at
time zero satisfies every precondition and the borrow reports success. -/
theorem c5_witness :
    findUser stateF 7 = Option.some userF
  ∧ findBook stateF 1 = Option.some (bookF 1)
  ∧ (bookF 1).isActive = true
  ∧ (bookF 1).isDeleted = false
  ∧ canBeBorrowed (bookF 1) = true
  ∧ findLoanTx stateF 7 1 = Option.none
  ∧ (borrowOp stateF 7 1 0).2 = Option.none := by
  refine ⟨by decide, by decide, by decide, by decide, by decide, by decide, ?_⟩
  exact (c5_borrow_effects stateF 7 1 0 userF (bookF 1) (by decide) (by decide)
    (by decide) (by decide) (by decide) (by decide)).1

/-- C10: every book save recomputes isAvailable as availableCopies positive
and not deleted, so a saved book is borrowable exactly when it has a copy,
is not deleted, and is not damaged. -/
theorem c10_saved_book_borrowable (b : Book) :
    (bookPreSave b).isAvailable =
      (decide (0 < (bookPreSave b).availableCopies) && !(bookPreSave b).isDeleted)
  ∧ canBeBorrowed (bookPreSave b) =
      (decide (0 < b.availableCopies) && !b.isDeleted &&
       !(b.condition == BookCondition.damaged)) := by
  refine ⟨rfl, ?_⟩
  rw [canBeBorrowed, bookPreSave]
  cases hd : b.isDeleted <;> cases ha : decide (0 < b.availableCopies) <;> simp [hd, ha]

end Library
